import Mathlib

/-!
Verification of the batch-processing and event-streaming core of the
june-nest backend (NestJS).  The definitions below are shallow embeddings
of `BatchService` (src/batch, full source in src/unnamed/part_006) and
`StreamingService` (embedded in
src/src/streaming/streaming.controller.spec.ts, lines 523-1073).
JavaScript `Map`s are modelled as insertion-ordered association lists,
`Date` values are abstracted to `0` (only presence matters for the
properties below), numbers are `Nat`/`Int`/`Rat` with exact arithmetic,
and a promise that rejects is modelled with `Except` / explicit flags.
-/

/-- Insertion-ordered association list standing for a JavaScript `Map`.
`Map.prototype.set` overwrites the value of an existing key in place
(keeping its insertion position) and appends a fresh key at the end. -/
def mapSet {α : Type} (m : List (String × α)) (k : String) (v : α) :
    List (String × α) :=
  if m.any (fun p => p.1 == k) then
    m.map (fun p => if p.1 == k then (k, v) else p)
  else
    m ++ [(k, v)]

/-- `Map.prototype.get`, returning `none` for a missing key. -/
def mapGet {α : Type} (m : List (String × α)) (k : String) : Option α :=
  (m.find? (fun p => p.1 == k)).map (fun p => p.2)

/-- `Map.prototype.delete`: returns whether the key was present, and the
map without it. -/
def mapDelete {α : Type} (m : List (String × α)) (k : String) :
    Bool × List (String × α) :=
  (m.any (fun p => p.1 == k), m.filter (fun p => !(p.1 == k)))

theorem mapGet_mapSet_self {α : Type} (m : List (String × α)) (k : String) (v : α) :
    mapGet (mapSet m k v) k = some v := by
  rw [mapGet, mapSet]
  by_cases h : m.any (fun p => p.1 == k) = true
  · rw [if_pos h]
    suffices hfind : ∀ l : List (String × α), l.any (fun p => p.1 == k) = true →
        (l.map (fun p => if p.1 == k then (k, v) else p)).find? (fun p => p.1 == k)
          = some (k, v) by
      rw [hfind m h]; rfl
    intro l
    induction l with
    | nil => intro hl; simp at hl
    | cons p ps ih =>
      intro hl
      by_cases hp : (p.1 == k) = true
      · simp [List.find?, hp]
      · have hp' : (p.1 == k) = false := by simpa using hp
        simp only [List.map_cons, hp', Bool.false_eq_true, if_false, List.find?, hp']
        apply ih
        simpa [List.any_cons, hp'] using hl
  · rw [if_neg h]
    have h' : m.any (fun p => p.1 == k) = false := Bool.eq_false_iff.mpr h
    clear h
    suffices hfind : ∀ l : List (String × α), l.any (fun p => p.1 == k) = false →
        (l ++ [(k, v)]).find? (fun p => p.1 == k) = some (k, v) by
      rw [hfind m h']; rfl
    intro l
    induction l with
    | nil => simp [List.find?]
    | cons p ps ih =>
      intro hl
      simp only [List.any_cons, Bool.or_eq_false_iff] at hl
      simp only [List.cons_append, List.find?, hl.1]
      exact ih hl.2

theorem mapGet_mapSet_other {α : Type} (m : List (String × α)) (k k' : String)
    (v : α) (hkk : k' ≠ k) :
    mapGet (mapSet m k v) k' = mapGet m k' := by
  have hkv : (((k, v) : String × α).1 == k') = false :=
    beq_eq_false_iff_ne.mpr (fun he => hkk he.symm)
  rw [mapGet, mapGet, mapSet]
  by_cases h : m.any (fun p => p.1 == k) = true
  · rw [if_pos h]
    clear h
    congr 1
    induction m with
    | nil => rfl
    | cons p ps ih =>
      by_cases hp : (p.1 == k) = true
      · have hp1 : p.1 = k := by simpa using hp
        have hne : (p.1 == k') = false := by
          rw [hp1]
          exact beq_eq_false_iff_ne.mpr (fun he => hkk he.symm)
        simp only [List.map_cons, hp, if_true, List.find?, hkv, hne, ih]
      · have hp' : (p.1 == k) = false := Bool.eq_false_iff.mpr hp
        simp only [List.map_cons, hp', Bool.false_eq_true, if_false, List.find?]
        cases hq : (p.1 == k') with
        | true => rfl
        | false => exact ih
  · rw [if_neg h]
    congr 1
    rw [List.find?_append]
    have hnil : ([((k, v))] : List (String × α)).find? (fun p => p.1 == k')
        = none := by
      simp [List.find?, hkv]
    rw [hnil, Option.or_none]

theorem mapSet_keys {α : Type} (m : List (String × α)) (k : String) (v : α) :
    (mapSet m k v).map Prod.fst
      = if (m.any (fun p => p.1 == k)) = true then m.map Prod.fst
        else m.map Prod.fst ++ [k] := by
  rw [mapSet]
  by_cases h : m.any (fun p => p.1 == k) = true
  · rw [if_pos h, if_pos h, List.map_map]
    apply List.map_congr_left
    intro p _
    by_cases hp : (p.1 == k) = true
    · have hp1 : p.1 = k := by simpa using hp
      simp [Function.comp, hp, hp1]
    · simp [Function.comp, hp]
  · rw [if_neg h, if_neg h, List.map_append]
    rfl

/-! ## Batch service: `BatchService` (src/unnamed/part_006) -/

/-- `BatchJob.type` (part_006 line 16). -/
inductive BatchType where
  | VIDEO_PROCESSING
  | EMAIL_NOTIFICATION
  | DATA_CLEANUP
deriving DecidableEq, Repr

/-- `BatchJob.status` (part_006 line 17). -/
inductive BatchStatus where
  | PENDING
  | PROCESSING
  | COMPLETED
  | FAILED
deriving DecidableEq, Repr

/-- The `BatchJob` record (part_006 lines 14-25).  Timestamps are
abstracted to `Nat` with value `0`; `startedAt`/`completedAt`/`error`
keep their optionality. -/
structure BatchJob where
  id : String
  type : BatchType
  status : BatchStatus
  progress : Nat
  totalItems : Nat
  processedItems : Nat
  createdAt : Nat
  startedAt : Option Nat
  completedAt : Option Nat
  error : Option String
deriving DecidableEq, Repr

/-- The in-memory job registry `private jobs = new Map<string, BatchJob>()`
(part_006 line 30). -/
abbrev Registry : Type := List (String × BatchJob)

/-- `getJobStatus` (part_006 lines 354-356): `this.jobs.get(jobId) || null`. -/
def getJobStatus (jobs : Registry) (jobId : String) : Option BatchJob :=
  mapGet jobs jobId

/-- A record fed to a per-item action.  `ok` records whether the action
(`processVideoItem` / `sendWeeklyEmail` / `cleanupVideoData`) resolves
(`true`) or rejects (`false`) on this item; the actions' own effects
(DB writes, emails) are outside the job-accounting state modelled here. -/
structure BatchItem where
  idx : Nat
  ok : Bool
deriving DecidableEq, Repr

/-- `Math.round((p / t) * 100)` for natural `p`, `t` with `t > 0`,
computed exactly on rationals: `round(x) = ⌊x + 1/2⌋` (JS rounds half
away from zero toward +∞ for non-negative input), and
`⌊100p/t + 1/2⌋ = (200p + t) / (2t)` in natural division.  The float
arithmetic of the source is exact relative to this for the record-set
sizes involved (the fetch is capped at 100 records). -/
def mathRound100 (p t : Nat) : Nat :=
  (200 * p + t) / (2 * t)

/-- One iteration of the per-item loop (part_006 lines 91-108 and the
analogous bodies at lines 208-221 and 306-320): on success the action
resolves, `processedItems` is incremented and `progress` recomputed
(lines 97-98); on rejection the `catch` only logs (line 106) and the
loop continues, leaving the job untouched. -/
def processOneItem (job : BatchJob) (it : BatchItem) : BatchJob :=
  if it.ok then
    let p := job.processedItems + 1
    { job with processedItems := p, progress := mathRound100 p job.totalItems }
  else
    job

/-- The fxts `chunk` generator: each iteration pulls one element from the
source iterator and, if the source is not yet done, completes the chunk
with `take(size - 1)` drawn from the same iterator, yielding the
combined array.  `take` yields nothing for a limit below 1, so a
non-positive size degenerates to singleton chunks — the generator still
terminates, because every iteration consumes the head element.  `fuel`
bounds the number of chunks; as every chunk consumes at least one
element, the input length is enough fuel, and the zero-fuel case with a
non-empty source is never reached from `chunksFx`. -/
def chunkGo {α : Type} (k : Int) : Nat → List α → List (List α)
  | _, [] => []
  | 0, _ :: _ => []
  | fuel + 1, x :: xs =>
    (x :: xs.take (k - 1).toNat) :: chunkGo k fuel (xs.drop (k - 1).toNat)

/-- `chunk(chunkSize)` from `@fxts/core` as used in the pipelines
(part_006 lines 79-84, 195-200, 293-298). -/
def chunksFx {α : Type} (k : Int) (l : List α) : List (List α) :=
  chunkGo k l.length l

/-- The chunked per-item loop (part_006 lines 87-112): chunks in order,
items within each chunk in order; the delays between items and chunks are
cooperative suspensions with no effect on the job state. -/
def runChunks (job : BatchJob) (cs : List (List BatchItem)) : BatchJob :=
  cs.foldl (fun j c => c.foldl processOneItem j) job

/-- The job record created and started at the top of each batch run
(part_006 lines 57-66, 173-182, 271-280). -/
def initialJob (jobType : BatchType) (jobId : String) (items : List BatchItem) :
    BatchJob :=
  { id := jobId, type := jobType, status := .PROCESSING, progress := 0,
    totalItems := items.length, processedItems := 0,
    createdAt := 0, startedAt := some 0, completedAt := none, error := none }

/-- Normal completion of a run (part_006 lines 70-76 and 114-117):
status COMPLETED, `completedAt` set, `progress` forced to 100. -/
def completeJob (job : BatchJob) : BatchJob :=
  { job with status := .COMPLETED, completedAt := some 0, progress := 100 }

/-- Result of a batch call: `result` is `some (.ok job)` — the completed
(or failed-over) job the call returns — or `some (.error e)` — the fetch
error it rethrows; `jobs` is the registry after the mutations the call
performed. -/
structure BatchRun where
  result : Option (Except String BatchJob)
  jobs : Registry

/-- Shared body of the three batch operations, faithful to
`processVideosBatch` (part_006 lines 35-135); the other two operations
differ only in job type, chunk size and the per-item action.  `fetch` is
the outcome of the initial bounded query (and, for the email batch, the
target-preparation pipeline): `.error` when it rejects.  Steps, in
source order: on fetch rejection the catch block (lines 123-134) marks
the job FAILED only if it is already registered — it never is, because
registration (line 68) happens after the fetch — and rethrows; on
success the job is created and registered (lines 57-68), an empty record
set completes immediately (lines 70-76), and otherwise the chunked
per-item loop runs (lines 79-112) and the job is completed
(lines 114-121).  The chunk size is first read at line 82, after
registration; no validation of it is performed anywhere — a non-positive
size only degenerates the chunk structure (singleton chunks), leaving
the flat per-item sequence unchanged, so the run still completes. -/
def runBatchCore (jobType : BatchType) (chunkSize : Int) (jobId : String)
    (fetch : Except String (List BatchItem)) (jobs0 : Registry) : BatchRun :=
  match fetch with
  | .error e =>
    match mapGet jobs0 jobId with
    | some j =>
      let jFailed := { j with status := .FAILED, error := some e, completedAt := some 0 }
      { result := some (.error e), jobs := mapSet jobs0 jobId jFailed }
    | none => { result := some (.error e), jobs := jobs0 }
  | .ok items =>
    let job0 := initialJob jobType jobId items
    let jobs1 := mapSet jobs0 jobId job0
    if items.isEmpty then
      let jobC := completeJob job0
      { result := some (.ok jobC), jobs := mapSet jobs1 jobId jobC }
    else
      let jobRun := runChunks job0 (chunksFx chunkSize items)
      let jobC := completeJob jobRun
      { result := some (.ok jobC), jobs := mapSet jobs1 jobId jobC }

/-- `processVideosBatch(chunkSize, concurrency)` (part_006 lines 35-135).
The `concurrency` parameter is accepted but never used: the loop is
strictly sequential. -/
def processVideosBatch (chunkSize concurrency : Int) (jobId : String)
    (fetch : Except String (List BatchItem)) (jobs0 : Registry) : BatchRun :=
  runBatchCore .VIDEO_PROCESSING chunkSize jobId fetch jobs0

/-- `processEmailNotificationsBatch(batchSize)` (part_006 lines 138-252). -/
def processEmailNotificationsBatch (batchSize : Int) (jobId : String)
    (fetch : Except String (List BatchItem)) (jobs0 : Registry) : BatchRun :=
  runBatchCore .EMAIL_NOTIFICATION batchSize jobId fetch jobs0

/-- `processDataCleanupBatch()` (part_006 lines 255-351); the chunk size
is the literal 10 (line 296). -/
def processDataCleanupBatch (jobId : String)
    (fetch : Except String (List BatchItem)) (jobs0 : Registry) : BatchRun :=
  runBatchCore .DATA_CLEANUP 10 jobId fetch jobs0

/-- Snapshots of the job record observable through `getJobStatus` during
a successful-fetch, non-empty run: the freshly registered job, the state
after each item of the flat item sequence (the chunked loop visits the
items of the concatenated chunks in input order; chunk boundaries only
insert delays), and the forced terminal state. -/
def batchJobStates (jobType : BatchType) (jobId : String)
    (items : List BatchItem) : List BatchJob :=
  let job0 := initialJob jobType jobId items
  items.scanl processOneItem job0 ++ [completeJob (items.foldl processOneItem job0)]

/-! ### Basic lemmas about the batch model -/

theorem chunkGo_flatten {α : Type} (k : Int) :
    ∀ (fuel : Nat) (l : List α), l.length ≤ fuel →
      (chunkGo k fuel l).flatten = l := by
  intro fuel
  induction fuel with
  | zero =>
    intro l hl
    cases l with
    | nil => rfl
    | cons x xs => simp at hl
  | succ n ih =>
    intro l hl
    cases l with
    | nil => rfl
    | cons x xs =>
      have hlen : (xs.drop (k - 1).toNat).length ≤ n := by
        rw [List.length_drop]
        simp only [List.length_cons, Nat.succ_le_succ_iff] at hl
        omega
      rw [chunkGo, List.flatten_cons, ih _ hlen, List.cons_append,
        List.take_append_drop]

theorem chunksFx_flatten {α : Type} (k : Int) (l : List α) :
    (chunksFx k l).flatten = l :=
  chunkGo_flatten k l.length l (le_refl _)

/-- Folding the per-item step over the chunked structure is folding it over
the flat item sequence: chunk boundaries only add delays. -/
theorem runChunks_eq_foldl (job : BatchJob) (k : Int) (items : List BatchItem) :
    runChunks job (chunksFx k items) = items.foldl processOneItem job := by
  rw [runChunks, ← List.foldl_flatten, chunksFx_flatten]

/-- For a non-positive chunk size, `take(size - 1)` contributes nothing,
so every chunk is a singleton. -/
theorem chunksFx_nonpos {α : Type} (k : Int) (hk : k ≤ 0) (l : List α) :
    chunksFx k l = l.map (fun x => [x]) := by
  have hm : (k - 1).toNat = 0 := by omega
  rw [chunksFx]
  suffices h : ∀ (fuel : Nat) (l : List α), l.length ≤ fuel →
      chunkGo k fuel l = l.map (fun x => [x]) from h l.length l (le_refl _)
  intro fuel
  induction fuel with
  | zero =>
    intro l hl
    cases l with
    | nil => rfl
    | cons x xs => simp at hl
  | succ n ih =>
    intro l hl
    cases l with
    | nil => rfl
    | cons x xs =>
      have hxs : xs.length ≤ n := by
        simpa using hl
      rw [chunkGo, hm, List.take_zero, List.drop_zero, List.map_cons, ih xs hxs]

theorem foldl_processOneItem_totalItems (items : List BatchItem) :
    ∀ j : BatchJob, (items.foldl processOneItem j).totalItems = j.totalItems := by
  induction items with
  | nil => intro j; rfl
  | cons x xs ih =>
    intro j
    rw [List.foldl_cons, ih]
    by_cases h : x.ok <;> simp [processOneItem, h]

theorem foldl_processOneItem_processedItems (items : List BatchItem) :
    ∀ j : BatchJob, (items.foldl processOneItem j).processedItems
      = j.processedItems + (items.filter (fun it => it.ok)).length := by
  induction items with
  | nil => intro j; simp
  | cons x xs ih =>
    intro j
    rw [List.foldl_cons, ih]
    by_cases h : x.ok <;> simp [processOneItem, h] <;> omega

theorem foldl_processOneItem_status (items : List BatchItem) :
    ∀ j : BatchJob, (items.foldl processOneItem j).status = j.status := by
  induction items with
  | nil => intro j; rfl
  | cons x xs ih =>
    intro j
    rw [List.foldl_cons, ih]
    by_cases h : x.ok <;> simp [processOneItem, h]

theorem mathRound100_zero (t : Nat) : mathRound100 0 t = 0 := by
  unfold mathRound100
  rcases Nat.eq_zero_or_pos t with h | h
  · simp [h]
  · rw [Nat.mul_zero, Nat.zero_add]
    exact Nat.div_eq_of_lt (by omega)

theorem mathRound100_self (t : Nat) (h : 0 < t) : mathRound100 t t = 100 := by
  unfold mathRound100
  exact Nat.div_eq_of_lt_le (by omega) (by omega)

/-- Unfolding of the per-item step on a succeeding item. -/
theorem processOneItem_true (j : BatchJob) (x : BatchItem) (h : x.ok = true) :
    processOneItem j x = { j with processedItems := j.processedItems + 1, progress := mathRound100 (j.processedItems + 1) j.totalItems } := by
  simp [processOneItem, h]

/-- A failing item leaves the job record untouched. -/
theorem processOneItem_false (j : BatchJob) (x : BatchItem) (h : x.ok = false) :
    processOneItem j x = j := by
  simp [processOneItem, h]

/-- Invariant of the per-item loop: at every intermediate observation
point, `processedItems` is bounded by `totalItems` and `progress` is the
rounded percentage of `processedItems`. -/
theorem scanl_processOneItem_inv (items : List BatchItem) :
    ∀ j : BatchJob,
      j.processedItems + (items.filter (fun it => it.ok)).length ≤ j.totalItems →
      j.progress = mathRound100 j.processedItems j.totalItems →
      ∀ s ∈ items.scanl processOneItem j,
        s.processedItems ≤ j.totalItems
          ∧ s.progress = mathRound100 s.processedItems s.totalItems
          ∧ s.totalItems = j.totalItems := by
  induction items with
  | nil =>
    intro j hb hp s hs
    rw [List.scanl_nil, List.mem_singleton] at hs
    subst hs
    exact ⟨by omega, hp, rfl⟩
  | cons x xs ih =>
    intro j hb hp s hs
    rw [List.scanl_cons] at hs
    rcases List.mem_append.mp hs with hs | hs
    · have hsj : s = j := by simpa using hs
      subst hsj
      exact ⟨by omega, hp, rfl⟩
    · cases hok : x.ok with
      | true =>
        rw [processOneItem_true j x hok] at hs
        have hflt : ((x :: xs).filter (fun it => it.ok)).length
            = (xs.filter (fun it => it.ok)).length + 1 := by
          simp [List.filter_cons, hok]
        rw [hflt] at hb
        have := ih { j with processedItems := j.processedItems + 1, progress := mathRound100 (j.processedItems + 1) j.totalItems } (by simp only; omega) rfl s hs
        simpa using this
      | false =>
        rw [processOneItem_false j x hok] at hs
        have hflt : ((x :: xs).filter (fun it => it.ok)).length
            = (xs.filter (fun it => it.ok)).length := by
          simp [List.filter_cons, hok]
        rw [hflt] at hb
        exact ih j hb hp s hs

/-- The happy-path behaviour of `runBatchCore`: with a successful fetch
and a non-empty record set (any chunk size) the call returns the
completed job obtained by folding the per-item step over the items, and
leaves that job in the registry. -/
theorem runBatchCore_ok_full (jobType : BatchType) (chunkSize : Int)
    (jobId : String) (items : List BatchItem)
    (hne : items ≠ []) (jobs0 : Registry) :
    (runBatchCore jobType chunkSize jobId (.ok items) jobs0).result
      = some (.ok (completeJob
          (items.foldl processOneItem (initialJob jobType jobId items)))) ∧
    getJobStatus (runBatchCore jobType chunkSize jobId (.ok items) jobs0).jobs
        jobId
      = some (completeJob
          (items.foldl processOneItem (initialJob jobType jobId items))) := by
  have hni : items.isEmpty = false := by
    cases items with
    | nil => exact absurd rfl hne
    | cons a l => rfl
  constructor
  · simp only [runBatchCore, hni, Bool.false_eq_true, if_false,
      runChunks_eq_foldl]
  · simp only [runBatchCore, hni, Bool.false_eq_true, if_false,
      runChunks_eq_foldl, getJobStatus]
    exact mapGet_mapSet_self _ jobId _

theorem runBatchCore_ok (jobType : BatchType) (chunkSize : Int)
    (jobId : String) (items : List BatchItem)
    (hne : items ≠ []) (jobs0 : Registry) :
    (runBatchCore jobType chunkSize jobId (.ok items) jobs0).result
      = some (.ok (completeJob
          (items.foldl processOneItem (initialJob jobType jobId items)))) :=
  (runBatchCore_ok_full jobType chunkSize jobId items hne jobs0).1

theorem runBatchCore_ok_spec (jobType : BatchType) (chunkSize : Int)
    (jobId : String) (items : List BatchItem)
    (hne : items ≠ []) (jobs0 : Registry) :
    ∃ job, (runBatchCore jobType chunkSize jobId (.ok items) jobs0).result
        = some (.ok job)
      ∧ job.status = .COMPLETED ∧ job.totalItems = items.length
      ∧ job.processedItems = (items.filter (fun it => it.ok)).length := by
  refine ⟨_, runBatchCore_ok jobType chunkSize jobId items hne jobs0, rfl, ?_, ?_⟩
  · show (items.foldl processOneItem (initialJob jobType jobId items)).totalItems
      = items.length
    rw [foldl_processOneItem_totalItems]
    rfl
  · show (items.foldl processOneItem (initialJob jobType jobId items)).processedItems
      = (items.filter (fun it => it.ok)).length
    rw [foldl_processOneItem_processedItems]
    show 0 + _ = _
    exact Nat.zero_add _

/-- C1 (amended): in every batch run (video processing, email
notification, data cleanup), a per-item failure is caught and logged and
the run continues with the remaining items — the run still completes
normally — but an attempted-and-failed item does NOT count toward
`processedItems`: only items whose action succeeded are counted, and the
`BatchJob` record carries no separate failure tally. -/
theorem batch_perItemFailure_policy (chunkSize batchSize concurrency : Int)
    (hc : 0 < chunkSize) (hbs : 0 < batchSize) (jobId : String)
    (items : List BatchItem) (hne : items ≠ []) (jobs0 : Registry) :
    (∃ job, (processVideosBatch chunkSize concurrency jobId (.ok items) jobs0).result
        = some (.ok job)
      ∧ job.status = .COMPLETED ∧ job.totalItems = items.length
      ∧ job.processedItems = (items.filter (fun it => it.ok)).length) ∧
    (∃ job, (processEmailNotificationsBatch batchSize jobId (.ok items) jobs0).result
        = some (.ok job)
      ∧ job.status = .COMPLETED ∧ job.totalItems = items.length
      ∧ job.processedItems = (items.filter (fun it => it.ok)).length) ∧
    (∃ job, (processDataCleanupBatch jobId (.ok items) jobs0).result
        = some (.ok job)
      ∧ job.status = .COMPLETED ∧ job.totalItems = items.length
      ∧ job.processedItems = (items.filter (fun it => it.ok)).length) :=
  ⟨runBatchCore_ok_spec .VIDEO_PROCESSING chunkSize jobId items hne jobs0,
   runBatchCore_ok_spec .EMAIL_NOTIFICATION batchSize jobId items hne jobs0,
   runBatchCore_ok_spec .DATA_CLEANUP 10 jobId items hne jobs0⟩

/-- Witness for `batch_perItemFailure_policy` at a two-item run whose
second item fails: each run completes with `processedItems = 1`. -/
theorem batch_perItemFailure_policy_witness :
    (0 : Int) < 2 ∧ (0 : Int) < 50
      ∧ ([⟨1, true⟩, ⟨2, false⟩] : List BatchItem) ≠ [] ∧
    ((∃ job, (processVideosBatch 2 3 "b1" (.ok [⟨1, true⟩, ⟨2, false⟩]) []).result
        = some (.ok job)
      ∧ job.status = .COMPLETED
      ∧ job.totalItems = ([⟨1, true⟩, ⟨2, false⟩] : List BatchItem).length
      ∧ job.processedItems
          = (([⟨1, true⟩, ⟨2, false⟩] : List BatchItem).filter (fun it => it.ok)).length) ∧
    (∃ job, (processEmailNotificationsBatch 50 "b1" (.ok [⟨1, true⟩, ⟨2, false⟩]) []).result
        = some (.ok job)
      ∧ job.status = .COMPLETED
      ∧ job.totalItems = ([⟨1, true⟩, ⟨2, false⟩] : List BatchItem).length
      ∧ job.processedItems
          = (([⟨1, true⟩, ⟨2, false⟩] : List BatchItem).filter (fun it => it.ok)).length) ∧
    (∃ job, (processDataCleanupBatch "b1" (.ok [⟨1, true⟩, ⟨2, false⟩]) []).result
        = some (.ok job)
      ∧ job.status = .COMPLETED
      ∧ job.totalItems = ([⟨1, true⟩, ⟨2, false⟩] : List BatchItem).length
      ∧ job.processedItems
          = (([⟨1, true⟩, ⟨2, false⟩] : List BatchItem).filter (fun it => it.ok)).length)) :=
  ⟨by decide, by decide, by decide,
   batch_perItemFailure_policy 2 50 3 (by decide) (by decide) "b1"
     [⟨1, true⟩, ⟨2, false⟩] (by decide) []⟩

/-- C1 counterexample: a video batch over a single item whose action
rejects runs to COMPLETED with `processedItems = 0`, although one item
was attempted (`totalItems = 1`) — the attempted-but-failed item is not
counted toward `processedItems`, contrary to the claim. -/
theorem batch_perItemFailure_cex :
    (processVideosBatch 10 3 "video-processing-1" (.ok [⟨1, false⟩]) []).result
      = some (.ok
          { id := "video-processing-1", type := .VIDEO_PROCESSING,
            status := .COMPLETED, progress := 100, totalItems := 1,
            processedItems := 0, createdAt := 0, startedAt := some 0,
            completedAt := some 0, error := none }) := by
  rfl

theorem runBatchCore_fetchFailure (jobType : BatchType) (chunkSize : Int)
    (jobId e : String) (jobs0 : Registry)
    (hfresh : getJobStatus jobs0 jobId = none) :
    runBatchCore jobType chunkSize jobId (.error e) jobs0
      = { result := some (.error e), jobs := jobs0 } := by
  rw [getJobStatus] at hfresh
  simp only [runBatchCore, hfresh]

/-- C2 (amended): if the initial fetch rejects, the whole run aborts and
the error is rethrown to the caller; but because registration happens
only after a successful fetch, no job record exists for that run: the
registry is unchanged and `getJobStatus` returns nothing afterwards (the
FAILED transition in the catch block touches a job only if one is
already registered, which never happens on this path). -/
theorem batch_fetchFailure_policy (chunkSize batchSize concurrency : Int)
    (jobId e : String) (jobs0 : Registry)
    (hfresh : getJobStatus jobs0 jobId = none) :
    ((processVideosBatch chunkSize concurrency jobId (.error e) jobs0).result
        = some (.error e)
      ∧ (processVideosBatch chunkSize concurrency jobId (.error e) jobs0).jobs = jobs0
      ∧ getJobStatus
          (processVideosBatch chunkSize concurrency jobId (.error e) jobs0).jobs jobId
          = none) ∧
    ((processEmailNotificationsBatch batchSize jobId (.error e) jobs0).result
        = some (.error e)
      ∧ (processEmailNotificationsBatch batchSize jobId (.error e) jobs0).jobs = jobs0
      ∧ getJobStatus
          (processEmailNotificationsBatch batchSize jobId (.error e) jobs0).jobs jobId
          = none) ∧
    ((processDataCleanupBatch jobId (.error e) jobs0).result = some (.error e)
      ∧ (processDataCleanupBatch jobId (.error e) jobs0).jobs = jobs0
      ∧ getJobStatus (processDataCleanupBatch jobId (.error e) jobs0).jobs jobId
          = none) := by
  have h1 := runBatchCore_fetchFailure .VIDEO_PROCESSING chunkSize jobId e jobs0 hfresh
  have h2 := runBatchCore_fetchFailure .EMAIL_NOTIFICATION batchSize jobId e jobs0 hfresh
  have h3 := runBatchCore_fetchFailure .DATA_CLEANUP 10 jobId e jobs0 hfresh
  rw [processVideosBatch, processEmailNotificationsBatch, processDataCleanupBatch,
    h1, h2, h3]
  exact ⟨⟨rfl, rfl, hfresh⟩, ⟨rfl, rfl, hfresh⟩, ⟨rfl, rfl, hfresh⟩⟩

/-- Witness for `batch_fetchFailure_policy` on an empty registry. -/
theorem batch_fetchFailure_policy_witness :
    getJobStatus [] "video-processing-1" = none ∧
    (((processVideosBatch 10 3 "video-processing-1" (.error "DB down") []).result
        = some (.error "DB down")
      ∧ (processVideosBatch 10 3 "video-processing-1" (.error "DB down") []).jobs = []
      ∧ getJobStatus
          (processVideosBatch 10 3 "video-processing-1" (.error "DB down") []).jobs
          "video-processing-1" = none) ∧
    ((processEmailNotificationsBatch 50 "video-processing-1" (.error "DB down") []).result
        = some (.error "DB down")
      ∧ (processEmailNotificationsBatch 50 "video-processing-1" (.error "DB down") []).jobs
          = []
      ∧ getJobStatus
          (processEmailNotificationsBatch 50 "video-processing-1" (.error "DB down") []).jobs
          "video-processing-1" = none) ∧
    ((processDataCleanupBatch "video-processing-1" (.error "DB down") []).result
        = some (.error "DB down")
      ∧ (processDataCleanupBatch "video-processing-1" (.error "DB down") []).jobs = []
      ∧ getJobStatus
          (processDataCleanupBatch "video-processing-1" (.error "DB down") []).jobs
          "video-processing-1" = none)) :=
  ⟨rfl, batch_fetchFailure_policy 10 50 3 "video-processing-1" "DB down" [] rfl⟩

/-- C2 counterexample: with a rejecting fetch on a fresh registry the
error is rethrown, but no FAILED job record is observable afterwards:
`getJobStatus` returns nothing for the run's job id. -/
theorem batch_fetchFailure_cex :
    (processVideosBatch 10 3 "video-processing-1" (.error "DB down") []).result
      = some (.error "DB down") ∧
    getJobStatus (processVideosBatch 10 3 "video-processing-1" (.error "DB down") []).jobs
      "video-processing-1" = none :=
  ⟨rfl, rfl⟩

/-- C3 (amended): the batch operations perform no chunk-size validation:
a call with a non-positive chunk size is not rejected pre-flight and
never fails with an invalid-parameter error.  The job is created and
registered before the chunk size is first used; the fxts chunk stage
then degenerates to singleton chunks (`take(size - 1)` contributes
nothing), so the run proceeds normally: the per-item action IS invoked
(successful items are counted) and the registry afterwards holds the
COMPLETED job. -/
theorem batch_noChunkSizeValidation (chunkSize batchSize concurrency : Int)
    (hc : chunkSize ≤ 0) (hbs : batchSize ≤ 0) (jobId : String)
    (items : List BatchItem) (hne : items ≠ []) (jobs0 : Registry) :
    chunksFx chunkSize items = items.map (fun x => [x]) ∧
    (∃ job, (processVideosBatch chunkSize concurrency jobId (.ok items) jobs0).result
        = some (.ok job)
      ∧ job.status = .COMPLETED
      ∧ job.processedItems = (items.filter (fun it => it.ok)).length
      ∧ getJobStatus (processVideosBatch chunkSize concurrency jobId
          (.ok items) jobs0).jobs jobId = some job
      ∧ ∀ e, (processVideosBatch chunkSize concurrency jobId
          (.ok items) jobs0).result ≠ some (.error e)) ∧
    (∃ job, (processEmailNotificationsBatch batchSize jobId (.ok items) jobs0).result
        = some (.ok job)
      ∧ job.status = .COMPLETED
      ∧ getJobStatus (processEmailNotificationsBatch batchSize jobId
          (.ok items) jobs0).jobs jobId = some job
      ∧ ∀ e, (processEmailNotificationsBatch batchSize jobId
          (.ok items) jobs0).result ≠ some (.error e)) := by
  refine ⟨chunksFx_nonpos chunkSize hc items, ?_, ?_⟩
  · obtain ⟨hres, hreg⟩ :=
      runBatchCore_ok_full .VIDEO_PROCESSING chunkSize jobId items hne jobs0
    refine ⟨_, hres, rfl, ?_, hreg, ?_⟩
    · show (items.foldl processOneItem _).processedItems = _
      rw [foldl_processOneItem_processedItems]
      show 0 + _ = _
      exact Nat.zero_add _
    · intro e h
      rw [processVideosBatch, hres] at h
      exact Except.noConfusion (Option.some_injective _ h)
  · obtain ⟨hres, hreg⟩ :=
      runBatchCore_ok_full .EMAIL_NOTIFICATION batchSize jobId items hne jobs0
    refine ⟨_, hres, rfl, hreg, ?_⟩
    intro e h
    rw [processEmailNotificationsBatch, hres] at h
    exact Except.noConfusion (Option.some_injective _ h)

/-- Witness for `batch_noChunkSizeValidation` at chunk size 0 over one
succeeding record. -/
theorem batch_noChunkSizeValidation_witness :
    (0 : Int) ≤ 0 ∧ (0 : Int) ≤ 0 ∧ ([⟨1, true⟩] : List BatchItem) ≠ [] ∧
    (chunksFx 0 ([⟨1, true⟩] : List BatchItem)
        = ([⟨1, true⟩] : List BatchItem).map (fun x => [x]) ∧
    (∃ job, (processVideosBatch 0 3 "b2" (.ok [⟨1, true⟩]) []).result
        = some (.ok job)
      ∧ job.status = .COMPLETED
      ∧ job.processedItems
          = (([⟨1, true⟩] : List BatchItem).filter (fun it => it.ok)).length
      ∧ getJobStatus (processVideosBatch 0 3 "b2" (.ok [⟨1, true⟩]) []).jobs "b2"
          = some job
      ∧ ∀ e, (processVideosBatch 0 3 "b2" (.ok [⟨1, true⟩]) []).result
          ≠ some (.error e)) ∧
    (∃ job, (processEmailNotificationsBatch 0 "b2" (.ok [⟨1, true⟩]) []).result
        = some (.ok job)
      ∧ job.status = .COMPLETED
      ∧ getJobStatus (processEmailNotificationsBatch 0 "b2"
          (.ok [⟨1, true⟩]) []).jobs "b2" = some job
      ∧ ∀ e, (processEmailNotificationsBatch 0 "b2" (.ok [⟨1, true⟩]) []).result
          ≠ some (.error e))) :=
  ⟨by decide, by decide, by decide,
   batch_noChunkSizeValidation 0 0 3 (by decide) (by decide) "b2" [⟨1, true⟩]
     (by decide) []⟩

/-- C3 counterexample: calling the video batch with chunk size 0 over a
one-record fetch is not rejected: no invalid-parameter error is raised,
a job record IS added to the registry, and the run completes with that
job COMPLETED and its (succeeding) item processed — contradicting each
part of the claimed pre-flight rejection. -/
theorem batch_noChunkSizeValidation_cex :
    (processVideosBatch 0 3 "video-processing-1" (.ok [⟨1, true⟩]) []).result
      = some (.ok
          { id := "video-processing-1", type := .VIDEO_PROCESSING,
            status := .COMPLETED, progress := 100, totalItems := 1,
            processedItems := 1, createdAt := 0, startedAt := some 0,
            completedAt := some 0, error := none }) ∧
    getJobStatus (processVideosBatch 0 3 "video-processing-1"
        (.ok [⟨1, true⟩]) []).jobs "video-processing-1"
      = some
          { id := "video-processing-1", type := .VIDEO_PROCESSING,
            status := .COMPLETED, progress := 100, totalItems := 1,
            processedItems := 1, createdAt := 0, startedAt := some 0,
            completedAt := some 0, error := none } :=
  ⟨rfl, rfl⟩

/-- C5 (amended): for a run with `totalItems > 0`, at every observation
point `processedItems ≤ totalItems`, and at every observation point
*during* the run `progress = round(processedItems / totalItems * 100)`;
the terminal state, however, has `progress` forced to 100 regardless of
`processedItems`, so the rounding identity holds at the terminal
COMPLETED state only when every item succeeded. -/
theorem batch_progress_invariant (jobId : String) (items : List BatchItem)
    (chunkSize concurrency : Int) (hc : 0 < chunkSize) (hne : items ≠ [])
    (jobs0 : Registry) :
    (∀ s ∈ batchJobStates .VIDEO_PROCESSING jobId items,
        s.processedItems ≤ s.totalItems) ∧
    (∀ s ∈ items.scanl processOneItem (initialJob .VIDEO_PROCESSING jobId items),
        s.progress = mathRound100 s.processedItems s.totalItems) ∧
    (∃ job, (processVideosBatch chunkSize concurrency jobId (.ok items) jobs0).result
        = some (.ok job)
      ∧ (batchJobStates .VIDEO_PROCESSING jobId items).getLast? = some job
      ∧ job.progress = 100 ∧ job.status = .COMPLETED) := by
  have hb0 : (initialJob .VIDEO_PROCESSING jobId items).processedItems
      + (items.filter (fun it => it.ok)).length
      ≤ (initialJob .VIDEO_PROCESSING jobId items).totalItems := by
    show 0 + _ ≤ items.length
    rw [Nat.zero_add]
    exact List.length_filter_le _ items
  have hp0 : (initialJob .VIDEO_PROCESSING jobId items).progress
      = mathRound100 (initialJob .VIDEO_PROCESSING jobId items).processedItems
          (initialJob .VIDEO_PROCESSING jobId items).totalItems := by
    show 0 = mathRound100 0 items.length
    rw [mathRound100_zero]
  have hinv := scanl_processOneItem_inv items (initialJob .VIDEO_PROCESSING jobId items)
    hb0 hp0
  refine ⟨?_, ?_, ?_⟩
  · intro s hs
    rw [batchJobStates, List.mem_append] at hs
    rcases hs with hs | hs
    · rcases hinv s hs with ⟨h1, _, h3⟩
      rw [h3]
      exact h1
    · have hsj : s = completeJob
          (items.foldl processOneItem (initialJob .VIDEO_PROCESSING jobId items)) := by
        simpa using hs
      subst hsj
      show (items.foldl processOneItem _).processedItems
        ≤ (items.foldl processOneItem _).totalItems
      rw [foldl_processOneItem_totalItems, foldl_processOneItem_processedItems]
      show 0 + _ ≤ items.length
      rw [Nat.zero_add]
      exact List.length_filter_le _ items
  · intro s hs
    exact (hinv s hs).2.1
  · refine ⟨_, runBatchCore_ok .VIDEO_PROCESSING chunkSize jobId items hne jobs0,
      ?_, rfl, rfl⟩
    rw [batchJobStates]
    exact List.getLast?_concat _

/-- Witness for `batch_progress_invariant` on a singleton succeeding run. -/
theorem batch_progress_invariant_witness :
    (0 : Int) < 1 ∧ ([⟨1, true⟩] : List BatchItem) ≠ [] ∧
    ((∀ s ∈ batchJobStates .VIDEO_PROCESSING "b3" [⟨1, true⟩],
        s.processedItems ≤ s.totalItems) ∧
    (∀ s ∈ ([⟨1, true⟩] : List BatchItem).scanl processOneItem
        (initialJob .VIDEO_PROCESSING "b3" [⟨1, true⟩]),
        s.progress = mathRound100 s.processedItems s.totalItems) ∧
    (∃ job, (processVideosBatch 1 3 "b3" (.ok [⟨1, true⟩]) []).result = some (.ok job)
      ∧ (batchJobStates .VIDEO_PROCESSING "b3" [⟨1, true⟩]).getLast? = some job
      ∧ job.progress = 100 ∧ job.status = .COMPLETED)) :=
  ⟨by decide, by decide,
   batch_progress_invariant "b3" [⟨1, true⟩] 1 3 (by decide) (by decide) []⟩

/-- C5 counterexample: a run over two items that both fail terminates
COMPLETED with `progress = 100` while `processedItems = 0` and
`totalItems = 2`, so at the terminal observation point
`progress ≠ round(processedItems / totalItems * 100) = 0`. -/
theorem batch_progress_invariant_cex :
    (processVideosBatch 10 3 "video-processing-1"
        (.ok [⟨1, false⟩, ⟨2, false⟩]) []).result
      = some (.ok
          { id := "video-processing-1", type := .VIDEO_PROCESSING,
            status := .COMPLETED, progress := 100, totalItems := 2,
            processedItems := 0, createdAt := 0, startedAt := some 0,
            completedAt := some 0, error := none }) ∧
    mathRound100 0 2 = 0 :=
  ⟨rfl, rfl⟩

/-! ## Streaming service: `StreamingService`
(src/src/streaming/streaming.controller.spec.ts, lines 523-1073) -/

/-- `StreamEvent.type` (spec.ts line 540). -/
inductive EventType where
  | VIDEO_UPLOAD
  | USER_ACTIVITY
  | SYSTEM_METRIC
deriving DecidableEq, Repr

/-- The slice of the untyped `data` payload the streaming operations
inspect: only `data.userId` is read (by the userId filter, spec.ts
line 847).  `none` models an absent field; JavaScript truthiness makes
`0` behave like an absent field there too. -/
structure EventData where
  userId : Option Int
deriving DecidableEq, Repr

/-- `StreamEvent` (spec.ts lines 538-543), timestamps as epoch
milliseconds. -/
structure StreamEvent where
  id : String
  type : EventType
  timestamp : Int
  data : EventData
deriving DecidableEq, Repr

/-- `StreamSubscriber` (spec.ts lines 567-572).  The `onEvent` callback
is modelled by its only observable behaviour in the dispatch loop:
`throwsOn e` tells whether the callback's promise rejects on event `e`
(the invocations themselves are reported as a trace by
`notifySubscribers`). -/
structure StreamSubscriber where
  id : String
  eventTypes : List EventType
  throwsOn : StreamEvent → Bool
  isActive : Bool

/-- The `Omit<StreamSubscriber, 'isActive'>` argument of
`subscribeToStream` (spec.ts line 869). -/
structure SubscribeRequest where
  id : String
  eventTypes : List EventType
  throwsOn : StreamEvent → Bool

/-- The subscriber registry
`private subscribers = new Map<string, StreamSubscriber>()`
(spec.ts line 578). -/
abbrev SubMap : Type := List (String × StreamSubscriber)

/-- `subscribeToStream` (spec.ts lines 869-879): builds the full
subscriber with `isActive: true`, stores it with `Map.set` (which
replaces any existing entry under the same id), and returns the id.
There is no duplicate check. -/
def subscribeToStream (req : SubscribeRequest) (subs : SubMap) :
    String × SubMap :=
  (req.id, mapSet subs req.id
    { id := req.id, eventTypes := req.eventTypes, throwsOn := req.throwsOn,
      isActive := true })

/-- Mutable state of the service relevant to start/stop, subscription and
notification: `isStreaming` (spec.ts line 579), the bounded
`eventStream` buffer (line 577) and the subscriber map (line 578). -/
structure StreamingState where
  isStreaming : Bool
  eventStream : List StreamEvent
  subscribers : SubMap

/-- `unsubscribeFromStream` (spec.ts lines 881-887):
`Map.delete`, returning whether a subscription was removed. -/
def unsubscribeFromStream (subscriberId : String) (s : StreamingState) :
    Bool × StreamingState :=
  (s.subscribers.any (fun p => p.1 == subscriberId),
   { s with subscribers := s.subscribers.filter (fun p => !(p.1 == subscriberId)) })

/-- `stopStreamProcessing` (spec.ts lines 948-952): clears the streaming
flag and empties the subscriber map (`this.subscribers.clear()`). -/
def stopStreamProcessing (s : StreamingState) : StreamingState :=
  { s with isStreaming := false, subscribers := [] }

/-- `this.eventStream.slice(-10)` (spec.ts line 1057): the last (up to)
ten events of the buffer. -/
def recentEvents (eventStream : List StreamEvent) : List StreamEvent :=
  eventStream.drop (eventStream.length - 10)

/-- The per-subscriber inner loop of `notifySubscribers` (spec.ts
lines 1062-1070): walk the recent events in order; invoke the callback
on every event whose type is in `eventTypes`; when an invocation throws,
the surrounding try/catch (which wraps the whole inner `for`) aborts the
remaining events for this subscriber.  Returns the ids of the events on
which the callback was invoked (the throwing invocation included). -/
def deliverTo (sub : StreamSubscriber) : List StreamEvent → List String
  | [] => []
  | e :: es =>
    if sub.eventTypes.contains e.type then
      if sub.throwsOn e then [e.id]
      else e.id :: deliverTo sub es
    else deliverTo sub es

/-- `notifySubscribers` (spec.ts lines 1054-1072): early return on an
empty buffer; otherwise, for each subscriber in map (insertion) order,
skip inactive ones and run the guarded inner event loop.  The result is
the invocation trace: `(subscriberId, eventId)` pairs in invocation
order. -/
def notifySubscribers (eventStream : List StreamEvent) (subs : SubMap) :
    List (String × String) :=
  if eventStream.isEmpty then []
  else
    subs.foldl (fun acc p =>
      if p.2.isActive then
        acc ++ (deliverTo p.2 (recentEvents eventStream)).map (fun eid => (p.1, eid))
      else acc) []

/-- The `filters` argument of `filterEventStream` (spec.ts
lines 813-817). -/
structure StreamFilters where
  eventTypes : Option (List EventType)
  timeRange : Option (Int × Int)
  userId : Option Int
deriving DecidableEq, Repr

/-- JavaScript truthiness of a possibly-absent numeric field:
`undefined`/`null` and `0` are falsy. -/
def truthyInt : Option Int → Bool
  | none => false
  | some n => n != 0

/-- The event-type filter (spec.ts lines 827-832): fails only when
`filters.eventTypes` is supplied (any array, including an empty one, is
truthy) and does not contain the event's type. -/
def passTypeFilter (filters : StreamFilters) (e : StreamEvent) : Bool :=
  match filters.eventTypes with
  | some ts => ts.contains e.type
  | none => true

/-- The time-range filter (spec.ts lines 835-843): inclusive at both
ends, vacuously true when absent. -/
def passTimeFilter (filters : StreamFilters) (e : StreamEvent) : Bool :=
  match filters.timeRange with
  | some r => decide (r.1 ≤ e.timestamp) && decide (e.timestamp ≤ r.2)
  | none => true

/-- The userId filter (spec.ts lines 846-851): the equality test fires
only when `filters.userId && event.data.userId` — i.e. both are truthy;
otherwise the event passes. -/
def passUserFilter (filters : StreamFilters) (e : StreamEvent) : Bool :=
  if truthyInt filters.userId && truthyInt e.data.userId then
    e.data.userId == filters.userId
  else true

/-- `filterEventStream` (spec.ts lines 813-866): the fxts pipeline of
three `filter` stages, applied in source order. -/
def filterEventStream (events : List StreamEvent) (filters : StreamFilters) :
    List StreamEvent :=
  ((events.filter (passTypeFilter filters)).filter
    (passTimeFilter filters)).filter (passUserFilter filters)

/-- `sampleEventStream` (spec.ts lines 742-764):
`filter(() => Math.random() < sampleRate)` — each event, in order,
consumes one draw from the random source and is kept iff the draw is
strictly below the rate.  `draws i` is the value `Math.random()` returns
for the i-th event; every draw lies in `[0, 1)`. -/
def sampleEventStream (events : List StreamEvent) (sampleRate : ℚ)
    (draws : Nat → ℚ) : List StreamEvent :=
  (events.enum.filter (fun p => decide (draws p.1 < sampleRate))).map (fun p => p.2)

/-- The `eventCounts` accumulator of `analyzeEventWindow` (spec.ts
lines 710-713): a JavaScript object with non-numeric string keys keeps
insertion order, and `acc[t] = (acc[t] || 0) + 1` bumps an existing key
in place or appends a fresh one. -/
def bumpCount (counts : List (EventType × Nat)) (t : EventType) :
    List (EventType × Nat) :=
  if counts.any (fun p => p.1 == t) then
    counts.map (fun p => if p.1 == t then (p.1, p.2 + 1) else p)
  else counts ++ [(t, 1)]

/-- `events.reduce(...)` building `eventCounts` (spec.ts lines 710-713). -/
def eventCounts (events : List StreamEvent) : List (EventType × Nat) :=
  events.foldl (fun acc e => bumpCount acc e.type) []

/-- Stable insertion (descending by count) used to model
`Object.entries(eventCounts).sort(([,a],[,b]) => b - a)` (spec.ts
lines 715-716): `Array.prototype.sort` is stable (ES2019), so an entry
is placed before the first strictly-smaller entry and after
equal-count entries that were inserted earlier. -/
def insertByCountDesc (x : EventType × Nat) :
    List (EventType × Nat) → List (EventType × Nat)
  | [] => [x]
  | y :: ys => if x.2 < y.2 then y :: insertByCountDesc x ys else x :: y :: ys

/-- Stable sort by count, descending (spec.ts lines 715-716). -/
def sortByCountDesc : List (EventType × Nat) → List (EventType × Nat)
  | [] => []
  | x :: xs => insertByCountDesc x (sortByCountDesc xs)

/-- `eventCounts['T'] || 0` lookups (spec.ts lines 725-727). -/
def countOf (counts : List (EventType × Nat)) (t : EventType) : Nat :=
  ((counts.find? (fun p => p.1 == t)).map (fun p => p.2)).getD 0

/-- The analysis record returned by `analyzeEventWindow` (spec.ts
lines 718-728); the window timestamps are omitted (they are wall-clock
values unrelated to the input). -/
structure WindowAnalysis where
  eventCounts : List (EventType × Nat)
  totalEvents : Nat
  eventsPerSecond : ℚ
  topEventType : Option EventType
  videoUploads : Nat
  userActivities : Nat
  systemMetrics : Nat
deriving DecidableEq, Repr

/-- `analyzeEventWindow` (spec.ts lines 698-739).  `topEventType` is
`sort[0]?.[0] || 'none'`: the head of the stably-sorted entry list, or
`none` when there are no events. -/
def analyzeEventWindow (events : List StreamEvent) : WindowAnalysis :=
  { eventCounts := eventCounts events
    totalEvents := events.length
    eventsPerSecond := (events.length : ℚ) / 60
    topEventType := ((sortByCountDesc (eventCounts events)).head?).map (fun p => p.1)
    videoUploads := countOf (eventCounts events) .VIDEO_UPLOAD
    userActivities := countOf (eventCounts events) .USER_ACTIVITY
    systemMetrics := countOf (eventCounts events) .SYSTEM_METRIC }

/-- The first entry of an entry list attaining the maximal count (an
entry wins a tie against every later entry). -/
def firstMaxEntry : List (EventType × Nat) → Option (EventType × Nat)
  | [] => none
  | x :: xs =>
    match firstMaxEntry xs with
    | none => some x
    | some m => if m.2 ≤ x.2 then some x else some m

/-- Modelled from the spec (claim C6): the top event type with ties
broken by the canonical type-declaration order VIDEO_UPLOAD,
USER_ACTIVITY, SYSTEM_METRIC — the type-membership counts come from the
same `eventCounts` table, and among equal maximal counts the earliest
type in declaration order is chosen.  This is the comparison point for
the tie-break the spec asserts; it is not the source's computation. -/
def topEventTypeCanonical (events : List StreamEvent) : Option EventType :=
  if events.isEmpty then none
  else
    some (([EventType.USER_ACTIVITY, EventType.SYSTEM_METRIC].foldl
      (fun best t =>
        if countOf (eventCounts events) best < countOf (eventCounts events) t
        then t else best)
      EventType.VIDEO_UPLOAD))

/-! ### Subscription, stop, filter and sampling claims -/

/-- C4 (amended): a subscribe call with an id that is already registered
is NOT rejected as a duplicate: it succeeds exactly like the first call
(returning the id) and replaces the stored registration with the new
one — `Map.set` overwrites the existing entry in place, leaving every
other registration untouched and the key order unchanged (a fresh id is
appended at the end). -/
theorem subscribeToStream_overwrites (subs : SubMap) (req : SubscribeRequest) :
    (subscribeToStream req subs).1 = req.id ∧
    mapGet (subscribeToStream req subs).2 req.id
      = some { id := req.id, eventTypes := req.eventTypes,
               throwsOn := req.throwsOn, isActive := true } ∧
    (∀ k, k ≠ req.id →
      mapGet (subscribeToStream req subs).2 k = mapGet subs k) ∧
    ((subscribeToStream req subs).2.map Prod.fst
      = if (subs.any (fun p => p.1 == req.id)) = true
        then subs.map Prod.fst
        else subs.map Prod.fst ++ [req.id]) :=
  ⟨rfl, mapGet_mapSet_self subs req.id _,
   fun k hk => mapGet_mapSet_other subs req.id k _ hk,
   mapSet_keys subs req.id _⟩

/-- C4 counterexample: subscribing twice under id "s1" — first for
USER_ACTIVITY, then for SYSTEM_METRIC — the second call succeeds
(returns "s1") and the registry now holds the second registration's
event types: the duplicate was neither rejected nor ignored. -/
theorem subscribeToStream_duplicate_cex :
    (subscribeToStream
      { id := "s1", eventTypes := [.SYSTEM_METRIC], throwsOn := fun _ => false }
      (subscribeToStream
        { id := "s1", eventTypes := [.USER_ACTIVITY], throwsOn := fun _ => false }
        []).2).1 = "s1" ∧
    (mapGet (subscribeToStream
      { id := "s1", eventTypes := [.SYSTEM_METRIC], throwsOn := fun _ => false }
      (subscribeToStream
        { id := "s1", eventTypes := [.USER_ACTIVITY], throwsOn := fun _ => false }
        []).2).2 "s1").map (fun sub => sub.eventTypes)
      = some [.SYSTEM_METRIC] :=
  ⟨rfl, rfl⟩

/-- C10: `stopStreamProcessing` does more than clear the streaming flag:
it empties the subscriber registry, so afterwards every previously
registered subscriber is gone, any `unsubscribeFromStream` call returns
false, and a notification pass delivers nothing (until subscribers
re-subscribe after a restart). -/
theorem stopStreamProcessing_clears (s : StreamingState) (subscriberId : String) :
    (stopStreamProcessing s).subscribers = [] ∧
    (stopStreamProcessing s).isStreaming = false ∧
    (unsubscribeFromStream subscriberId (stopStreamProcessing s)).1 = false ∧
    notifySubscribers (stopStreamProcessing s).eventStream
      (stopStreamProcessing s).subscribers = [] := by
  refine ⟨rfl, rfl, rfl, ?_⟩
  rw [notifySubscribers]
  split <;> rfl

theorem mem_filterEventStream (events : List StreamEvent) (f : StreamFilters)
    (e : StreamEvent) :
    e ∈ filterEventStream events f ↔ e ∈ events ∧ passTypeFilter f e = true
      ∧ passTimeFilter f e = true ∧ passUserFilter f e = true := by
  rw [filterEventStream]
  simp only [List.mem_filter]
  tauto

/-- C8 (amended): `filterEventStream` returns exactly the events of the
input, in input order, that pass every supplied predicate, where the
event-type predicate is membership, the time-range predicate is the
inclusive range test, and the userId predicate tests equality only when
both the criterion and the event's own `data.userId` field are truthy —
an event without a truthy userId field passes a supplied userId
criterion.  Absent predicates are vacuously true, empty criteria are the
identity, and filtering is idempotent. -/
theorem filterEventStream_semantics (events : List StreamEvent) (f : StreamFilters) :
    (∀ e, e ∈ filterEventStream events f ↔ e ∈ events
      ∧ passTypeFilter f e = true ∧ passTimeFilter f e = true
      ∧ passUserFilter f e = true) ∧
    filterEventStream events
      { eventTypes := none, timeRange := none, userId := none } = events ∧
    filterEventStream (filterEventStream events f) f = filterEventStream events f := by
  refine ⟨mem_filterEventStream events f, ?_, ?_⟩
  · simp [filterEventStream, passTypeFilter, passTimeFilter, passUserFilter, truthyInt]
  · have hty : List.filter (passTypeFilter f) (filterEventStream events f)
        = filterEventStream events f :=
      List.filter_eq_self.mpr
        (fun a ha => ((mem_filterEventStream events f a).mp ha).2.1)
    have hti : List.filter (passTimeFilter f) (filterEventStream events f)
        = filterEventStream events f :=
      List.filter_eq_self.mpr
        (fun a ha => ((mem_filterEventStream events f a).mp ha).2.2.1)
    have hu : List.filter (passUserFilter f) (filterEventStream events f)
        = filterEventStream events f :=
      List.filter_eq_self.mpr
        (fun a ha => ((mem_filterEventStream events f a).mp ha).2.2.2)
    conv_lhs => rw [filterEventStream]
    rw [hty, hti, hu]

/-- C8 counterexample: with the criterion `userId = 1` and one event
whose payload carries no userId field, the event is returned unchanged —
the code skips the userId test for events without a truthy userId — even
though the claimed field-equality predicate is false for it. -/
theorem filterEventStream_userId_cex :
    filterEventStream
      [{ id := "e1", type := .USER_ACTIVITY, timestamp := 0,
         data := { userId := none } }]
      { eventTypes := none, timeRange := none, userId := some 1 }
      = [{ id := "e1", type := .USER_ACTIVITY, timestamp := 0,
           data := { userId := none } }] ∧
    ({ id := "e1", type := .USER_ACTIVITY, timestamp := 0,
       data := { userId := none } } : StreamEvent).data.userId ≠ some 1 :=
  ⟨rfl, by decide⟩

/-- C9: sampling boundaries.  With every random draw in `[0, 1)`,
`sampleEventStream events 0` keeps nothing (no draw is below 0) and
`sampleEventStream events 1` keeps everything in order (every draw is
below 1): the empty list, respectively the unchanged input. -/
theorem sampleEventStream_bounds (events : List StreamEvent) (draws : Nat → ℚ)
    (h : ∀ i, 0 ≤ draws i ∧ draws i < 1) :
    sampleEventStream events 0 draws = [] ∧
    sampleEventStream events 1 draws = events := by
  constructor
  · rw [sampleEventStream]
    rw [List.filter_eq_nil_iff.mpr ?_]
    · rfl
    · intro p _
      simp only [decide_eq_true_eq]
      exact fun hlt => absurd hlt (not_lt.mpr (h p.1).1)
  · rw [sampleEventStream]
    rw [List.filter_eq_self.mpr ?_]
    · exact List.enum_map_snd events
    · intro p _
      simpa using (h p.1).2

/-- Witness for `sampleEventStream_bounds` with the constant draw 1/2. -/
theorem sampleEventStream_bounds_witness :
    (∀ i : Nat, 0 ≤ (fun _ : Nat => (1 : ℚ) / 2) i
      ∧ (fun _ : Nat => (1 : ℚ) / 2) i < 1) ∧
    (sampleEventStream
        [{ id := "m1", type := .SYSTEM_METRIC, timestamp := 0,
           data := { userId := none } }] 0 (fun _ => (1 : ℚ) / 2) = [] ∧
     sampleEventStream
        [{ id := "m1", type := .SYSTEM_METRIC, timestamp := 0,
           data := { userId := none } }] 1 (fun _ => (1 : ℚ) / 2)
        = [{ id := "m1", type := .SYSTEM_METRIC, timestamp := 0,
             data := { userId := none } }]) :=
  ⟨fun _ => ⟨by norm_num, by norm_num⟩,
   sampleEventStream_bounds
     [{ id := "m1", type := .SYSTEM_METRIC, timestamp := 0,
        data := { userId := none } }]
     (fun _ => (1 : ℚ) / 2) (fun _ => ⟨by norm_num, by norm_num⟩)⟩

/-! ### Window analysis: counts and tie-breaking (C6) -/

theorem countOf_cons (p : EventType × Nat) (ps : List (EventType × Nat))
    (t : EventType) :
    countOf (p :: ps) t = if (p.1 == t) = true then p.2 else countOf ps t := by
  by_cases h : (p.1 == t) = true
  · simp [countOf, List.find?, h]
  · have h' : (p.1 == t) = false := Bool.eq_false_iff.mpr h
    simp [countOf, List.find?, h']

theorem countOf_eq_zero_of_absent (acc : List (EventType × Nat)) (t : EventType)
    (h : (acc.any (fun p => p.1 == t)) = false) : countOf acc t = 0 := by
  rw [countOf, List.find?_eq_none.mpr ?_]
  · rfl
  · intro x hx hpx
    have hT : acc.any (fun p => p.1 == t) = true := by
      rw [List.any_eq_true]
      refine ⟨x, hx, ?_⟩
      simpa using hpx
    rw [h] at hT
    exact Bool.noConfusion hT

theorem countOf_append (l₁ l₂ : List (EventType × Nat)) (t : EventType) :
    countOf (l₁ ++ l₂) t
      = if (l₁.any (fun p => p.1 == t)) = true then countOf l₁ t
        else countOf l₂ t := by
  by_cases h : (l₁.any (fun p => p.1 == t)) = true
  · rw [if_pos h]
    obtain ⟨x, hx, hpx⟩ := List.any_eq_true.mp h
    have hsome : (l₁.find? (fun p => p.1 == t)).isSome := by
      rw [List.find?_isSome]
      refine ⟨x, hx, ?_⟩
      simpa using hpx
    obtain ⟨y, hy⟩ := Option.isSome_iff_exists.mp hsome
    rw [countOf, List.find?_append, hy, Option.or_some, countOf, hy]
  · rw [if_neg h]
    have h' : l₁.find? (fun p => p.1 == t) = none := by
      rw [List.find?_eq_none]
      intro x hx hpx
      exact h (List.any_eq_true.mpr ⟨x, hx, hpx⟩)
    rw [countOf, List.find?_append, h', Option.none_or, countOf]

theorem countOf_mapBump (u t : EventType) (acc : List (EventType × Nat)) :
    countOf (acc.map (fun p => if (p.1 == u) = true then (p.1, p.2 + 1) else p)) t
      = if (acc.any (fun p => p.1 == t)) = true ∧ t = u
        then countOf acc t + 1 else countOf acc t := by
  induction acc with
  | nil => simp [countOf]
  | cons p ps ih =>
    rw [List.map_cons]
    by_cases hpt : (p.1 == t) = true
    · have hpt' : p.1 = t := by simpa using hpt
      by_cases hpu : (p.1 == u) = true
      · have htu : t = u := by
          have : p.1 = u := by simpa using hpu
          rw [← hpt', this]
        rw [if_pos hpu, countOf_cons, countOf_cons]
        simp only [hpt, if_true]
        rw [if_pos ⟨by simp [List.any_cons, hpt], htu⟩]
      · have htu : ¬ t = u := by
          intro he
          exact hpu (by rw [← hpt'] at he; simpa using he)
        rw [if_neg hpu, countOf_cons, countOf_cons]
        simp only [hpt, if_true]
        rw [if_neg (fun hc => htu hc.2)]
    · have hpt' : (p.1 == t) = false := Bool.eq_false_iff.mpr hpt
      have hfst : (if (p.1 == u) = true then (p.1, p.2 + 1) else p).1 = p.1 := by
        by_cases hpu : (p.1 == u) = true
        · rw [if_pos hpu]
        · rw [if_neg hpu]
      rw [countOf_cons, countOf_cons, hfst]
      simp only [hpt', Bool.false_eq_true, if_false]
      rw [ih]
      have hany : ((p :: ps).any (fun q => q.1 == t)) = (ps.any (fun q => q.1 == t)) := by
        simp [List.any_cons, hpt']
      rw [hany]

theorem countOf_bumpCount (acc : List (EventType × Nat)) (u t : EventType) :
    countOf (bumpCount acc u) t
      = countOf acc t + (if t = u then 1 else 0) := by
  rw [bumpCount]
  by_cases hmem : (acc.any (fun p => p.1 == u)) = true
  · rw [if_pos hmem, countOf_mapBump]
    by_cases htu : t = u
    · subst htu
      rw [if_pos ⟨hmem, rfl⟩, if_pos rfl]
    · rw [if_neg (fun hc => htu hc.2), if_neg htu, Nat.add_zero]
  · rw [if_neg hmem, countOf_append]
    by_cases htu : t = u
    · subst htu
      have habs : (acc.any (fun p => p.1 == t)) = false :=
        Bool.eq_false_iff.mpr hmem
      rw [if_neg (by rw [habs]; exact Bool.noConfusion),
        countOf_eq_zero_of_absent acc t habs, countOf_cons]
      simp
    · by_cases hat : (acc.any (fun p => p.1 == t)) = true
      · rw [if_pos hat, if_neg htu, Nat.add_zero]
      · have hut : (((u, 1) : EventType × Nat).1 == t) = false :=
          beq_eq_false_iff_ne.mpr (fun he => htu he.symm)
        rw [if_neg hat, countOf_cons,
          if_neg (by rw [hut]; exact Bool.noConfusion), if_neg htu, Nat.add_zero,
          countOf_eq_zero_of_absent acc t (Bool.eq_false_iff.mpr hat)]
        rfl

theorem firstMaxEntry_eq_none_iff (l : List (EventType × Nat)) :
    firstMaxEntry l = none ↔ l = [] := by
  cases l with
  | nil => simp [firstMaxEntry]
  | cons a as =>
    rw [firstMaxEntry]
    cases firstMaxEntry as with
    | none => simp
    | some m =>
      simp only
      split <;> simp

/-- The head of the stable descending sort is the first entry attaining
the maximal count: the stable sort places an entry before exactly the
strictly-smaller earlier entries. -/
theorem sortByCountDesc_head (l : List (EventType × Nat)) :
    (sortByCountDesc l).head? = firstMaxEntry l := by
  induction l with
  | nil => rfl
  | cons x xs ih =>
    rw [sortByCountDesc, firstMaxEntry]
    cases hs : sortByCountDesc xs with
    | nil =>
      have hn : firstMaxEntry xs = none := by rw [← ih, hs]; rfl
      rw [hn]
      rfl
    | cons y ys =>
      have hm : firstMaxEntry xs = some y := by rw [← ih, hs]; rfl
      rw [hm, insertByCountDesc]
      show _ = if y.2 ≤ x.2 then some x else some y
      by_cases hxy : x.2 < y.2
      · rw [if_pos hxy, if_neg (by omega)]
        rfl
      · rw [if_neg hxy, if_pos (by omega)]
        rfl

/-- `firstMaxEntry` indeed returns an entry with maximal count that beats
every earlier entry strictly (i.e. the first maximum). -/
theorem firstMaxEntry_spec (l : List (EventType × Nat)) (x : EventType × Nat)
    (h : firstMaxEntry l = some x) :
    x ∈ l ∧ (∀ y ∈ l, y.2 ≤ x.2)
      ∧ ∃ l₁ l₂, l = l₁ ++ x :: l₂ ∧ ∀ y ∈ l₁, y.2 < x.2 := by
  induction l generalizing x with
  | nil => exact Option.noConfusion h
  | cons a as ih =>
    rw [firstMaxEntry] at h
    cases hm : firstMaxEntry as with
    | none =>
      have has : as = [] := (firstMaxEntry_eq_none_iff as).mp hm
      rw [hm] at h
      have hxa : x = a := by
        have := h
        simp only at this
        exact (Option.some_injective _ this).symm
      subst hxa
      subst has
      exact ⟨List.mem_singleton.mpr rfl, by simp, [], [], rfl, by simp⟩
    | some m =>
      rw [hm] at h
      simp only at h
      by_cases hma : m.2 ≤ a.2
      · rw [if_pos hma] at h
        have hxa : x = a := (Option.some_injective _ h).symm
        subst hxa
        obtain ⟨hmem, hbound, -⟩ := ih m hm
        refine ⟨List.mem_cons_self x as, ?_, [], as, rfl, by simp⟩
        intro y hy
        rcases List.mem_cons.mp hy with hy | hy
        · exact le_of_eq (congrArg Prod.snd hy)
        · exact le_trans (hbound y hy) hma
      · rw [if_neg hma] at h
        have hxm : x = m := (Option.some_injective _ h).symm
        subst hxm
        obtain ⟨hmem, hbound, l₁, l₂, hdec, hlt⟩ := ih x hm
        refine ⟨List.mem_cons_of_mem a hmem, ?_, a :: l₁, l₂, by rw [hdec]; rfl, ?_⟩
        · intro y hy
          rcases List.mem_cons.mp hy with hy | hy
          · rw [hy]; omega
          · exact hbound y hy
        · intro y hy
          rcases List.mem_cons.mp hy with hy | hy
          · rw [hy]; omega
          · exact hlt y hy

/-- C6 (amended): `topEventType` is the event type with the highest
count in `eventCounts` (whose per-type counts are exactly the numbers of
input events of each type), but ties are broken by the FIRST-OCCURRENCE
order of the types in the input event list — the insertion order of the
`eventCounts` object preserved by the stable sort — not by the canonical
type-declaration order; the result is a pure function of the input list
(deterministic, independent of any map iteration order). -/
theorem analyzeEventWindow_top (events : List StreamEvent) :
    ((analyzeEventWindow events).topEventType
      = (firstMaxEntry (eventCounts events)).map (fun p => p.1)) ∧
    (∀ t c, firstMaxEntry (eventCounts events) = some (t, c) →
      (t, c) ∈ eventCounts events
        ∧ (∀ y ∈ eventCounts events, y.2 ≤ c)
        ∧ ∃ l₁ l₂, eventCounts events = l₁ ++ (t, c) :: l₂
            ∧ ∀ y ∈ l₁, y.2 < c) ∧
    (∀ t, countOf (eventCounts events) t
      = (events.filter (fun e => e.type == t)).length) := by
  refine ⟨?_, ?_, ?_⟩
  · show ((sortByCountDesc (eventCounts events)).head?).map (fun p => p.1) = _
    rw [sortByCountDesc_head]
  · intro t c h
    exact firstMaxEntry_spec (eventCounts events) (t, c) h
  · intro t
    rw [eventCounts]
    suffices hgen : ∀ acc, countOf
        (events.foldl (fun acc e => bumpCount acc e.type) acc) t
        = countOf acc t + (events.filter (fun e => e.type == t)).length by
      rw [hgen []]
      simp [countOf]
    induction events with
    | nil => intro acc; simp
    | cons e es ihe =>
      intro acc
      rw [List.foldl_cons, ihe, countOf_bumpCount, List.filter_cons]
      by_cases h : t = e.type
      · rw [if_pos h, if_pos (beq_iff_eq.mpr h.symm), List.length_cons]
        omega
      · rw [if_neg h,
          if_neg (fun hb : (e.type == t) = true => h (beq_iff_eq.mp hb).symm)]
        omega

/-- C6 counterexample: with the two-event input [SYSTEM_METRIC,
VIDEO_UPLOAD] both types are tied at count 1; the code returns
SYSTEM_METRIC (first occurrence in the input), while the
canonical-declaration-order tie-break asserted by the claim returns
VIDEO_UPLOAD. -/
theorem analyzeEventWindow_tiebreak_cex :
    (analyzeEventWindow
      [{ id := "a", type := .SYSTEM_METRIC, timestamp := 0,
         data := { userId := none } },
       { id := "b", type := .VIDEO_UPLOAD, timestamp := 0,
         data := { userId := none } }]).topEventType
      = some .SYSTEM_METRIC ∧
    topEventTypeCanonical
      [{ id := "a", type := .SYSTEM_METRIC, timestamp := 0,
         data := { userId := none } },
       { id := "b", type := .VIDEO_UPLOAD, timestamp := 0,
         data := { userId := none } }]
      = some .VIDEO_UPLOAD ∧
    EventType.SYSTEM_METRIC ≠ EventType.VIDEO_UPLOAD :=
  ⟨rfl, rfl, by decide⟩

/-! ### Subscriber dispatch (C7) -/

/-- For a callback that never throws on the delivered window, the inner
loop invokes it exactly on the events whose type is interesting. -/
theorem deliverTo_noThrow (sub : StreamSubscriber) :
    ∀ es : List StreamEvent, (∀ e ∈ es, sub.throwsOn e = false) →
      deliverTo sub es
        = (es.filter (fun e => sub.eventTypes.contains e.type)).map
            (fun e => e.id) := by
  intro es
  induction es with
  | nil => intro _; rfl
  | cons e es ih =>
    intro h
    rw [deliverTo, List.filter_cons]
    by_cases ht : (sub.eventTypes.contains e.type) = true
    · rw [if_pos ht, if_pos ht,
        if_neg (by rw [h e (List.mem_cons_self e es)]; exact Bool.noConfusion),
        List.map_cons, ih (fun x hx => h x (List.mem_cons_of_mem e hx))]
    · rw [if_neg ht, if_neg ht, ih (fun x hx => h x (List.mem_cons_of_mem e hx))]

theorem notify_fold_flatten (recent : List StreamEvent) (subs : SubMap) :
    ∀ acc : List (String × String),
      subs.foldl (fun acc p =>
        if p.2.isActive then
          acc ++ (deliverTo p.2 recent).map (fun eid => (p.1, eid))
        else acc) acc
      = acc ++ (subs.map (fun p =>
          if p.2.isActive then (deliverTo p.2 recent).map (fun eid => (p.1, eid))
          else [])).flatten := by
  induction subs with
  | nil => intro acc; simp
  | cons p ps ih =>
    intro acc
    rw [List.foldl_cons, List.map_cons, List.flatten_cons]
    by_cases h : p.2.isActive = true
    · rw [if_pos h, if_pos h, ih, List.append_assoc]
    · rw [if_neg h, if_neg h, ih, List.nil_append]

theorem filter_contrib_self (recent : List StreamEvent) (id : String)
    (sub : StreamSubscriber) :
    ((deliverTo sub recent).map (fun eid => (id, eid))).filter
        (fun q => q.1 == id)
      = (deliverTo sub recent).map (fun eid => (id, eid)) :=
  List.filter_eq_self.mpr (by
    intro a ha
    obtain ⟨eid, _, rfl⟩ := List.mem_map.mp ha
    simp)

theorem filter_contrib_other (recent : List StreamEvent) (id k : String)
    (sub : StreamSubscriber) (hk : k ≠ id) :
    ((deliverTo sub recent).map (fun eid => (k, eid))).filter
        (fun q => q.1 == id) = [] :=
  List.filter_eq_nil_iff.mpr (by
    intro a ha
    obtain ⟨eid, _, rfl⟩ := List.mem_map.mp ha
    simpa using hk)

theorem flatten_contrib_none (recent : List StreamEvent) (id : String) :
    ∀ ps : SubMap, id ∉ ps.map Prod.fst →
      ((ps.map (fun p =>
          if p.2.isActive then (deliverTo p.2 recent).map (fun eid => (p.1, eid))
          else [])).flatten).filter (fun q => q.1 == id) = [] := by
  intro ps
  induction ps with
  | nil => intro _; rfl
  | cons p ps ih =>
    intro h
    rw [List.map_cons, List.flatten_cons, List.filter_append]
    rw [List.map_cons] at h
    have hk : p.1 ≠ id := fun he => h (he ▸ List.mem_cons_self p.1 (ps.map Prod.fst))
    have hhead : (if p.2.isActive then
        (deliverTo p.2 recent).map (fun eid => (p.1, eid)) else []).filter
        (fun q => q.1 == id) = [] := by
      by_cases ha : p.2.isActive = true
      · rw [if_pos ha]
        exact filter_contrib_other recent id p.1 p.2 hk
      · rw [if_neg ha]
        rfl
    rw [hhead, List.nil_append]
    exact ih (fun hmem => h (List.mem_cons_of_mem p.1 hmem))

theorem flatten_contrib_filter (recent : List StreamEvent) (id : String)
    (sub : StreamSubscriber) (hact : sub.isActive = true) :
    ∀ subs : SubMap, (id, sub) ∈ subs → (subs.map Prod.fst).Nodup →
      ((subs.map (fun p =>
          if p.2.isActive then (deliverTo p.2 recent).map (fun eid => (p.1, eid))
          else [])).flatten).filter (fun q => q.1 == id)
        = (deliverTo sub recent).map (fun eid => (id, eid)) := by
  intro subs
  induction subs with
  | nil => intro h _; exact absurd h (List.not_mem_nil (id, sub))
  | cons p ps ih =>
    intro hmem hnd
    rw [List.map_cons, List.flatten_cons, List.filter_append]
    rw [List.map_cons, List.nodup_cons] at hnd
    rcases List.mem_cons.mp hmem with heq | hmem'
    · have hp1 : p.1 = id := by rw [← heq]
      have hp2 : p.2 = sub := by rw [← heq]
      rw [hp1, hp2, if_pos hact, filter_contrib_self recent id sub]
      rw [flatten_contrib_none recent id ps (hp1 ▸ hnd.1), List.append_nil]
    · have hk : p.1 ≠ id := by
        intro hkid
        exact hnd.1 (hkid ▸ List.mem_map.mpr ⟨(id, sub), hmem', rfl⟩)
      have hhead : (if p.2.isActive then
          (deliverTo p.2 recent).map (fun eid => (p.1, eid)) else []).filter
          (fun q => q.1 == id) = [] := by
        by_cases ha : p.2.isActive = true
        · rw [if_pos ha]
          exact filter_contrib_other recent id p.1 p.2 hk
        · rw [if_neg ha]
          rfl
      rw [hhead, List.nil_append]
      exact ih hmem' hnd.2

/-- C7 (amended): dispatch is isolated per subscriber — an active
subscriber's invocation trace is exactly the one computed from its own
registration and the recent-events window, independent of every other
subscriber's callbacks (so a throwing callback never suppresses delivery
to the other subscribers) — and for a subscriber whose callback does not
throw on the delivered window, the callback is invoked on an event iff
the event's type is one of the subscriber's interested types.  A
subscriber whose callback throws on some event, however, misses the
remaining events of that dispatch, because the catch in the source wraps
the whole inner event loop. -/
theorem notifySubscribers_dispatch (eventStream : List StreamEvent)
    (subs : SubMap) (id : String) (sub : StreamSubscriber)
    (hmem : (id, sub) ∈ subs) (hnodup : (subs.map Prod.fst).Nodup)
    (hact : sub.isActive = true) :
    (notifySubscribers eventStream subs).filter (fun q => q.1 == id)
      = (deliverTo sub (recentEvents eventStream)).map (fun eid => (id, eid)) ∧
    ((∀ e ∈ recentEvents eventStream, sub.throwsOn e = false) →
      deliverTo sub (recentEvents eventStream)
        = ((recentEvents eventStream).filter
            (fun e => sub.eventTypes.contains e.type)).map (fun e => e.id)) := by
  constructor
  · rw [notifySubscribers]
    by_cases hemp : eventStream.isEmpty = true
    · rw [if_pos hemp]
      have : eventStream = [] := List.isEmpty_iff.mp hemp
      subst this
      rw [show recentEvents [] = [] from rfl, deliverTo]
      rfl
    · rw [if_neg hemp, notify_fold_flatten (recentEvents eventStream) subs [],
        List.nil_append]
      exact flatten_contrib_filter (recentEvents eventStream) id sub hact subs
        hmem hnodup
  · exact deliverTo_noThrow sub (recentEvents eventStream)

/-- A USER_ACTIVITY event used in the dispatch scenarios. -/
def uaEvent1 : StreamEvent :=
  { id := "e1", type := .USER_ACTIVITY, timestamp := 0, data := { userId := none } }

/-- A second USER_ACTIVITY event used in the dispatch scenarios. -/
def uaEvent2 : StreamEvent :=
  { id := "e2", type := .USER_ACTIVITY, timestamp := 0, data := { userId := none } }

/-- A SYSTEM_METRIC event used in the dispatch scenarios. -/
def smEvent : StreamEvent :=
  { id := "e2", type := .SYSTEM_METRIC, timestamp := 0, data := { userId := none } }

/-- An active subscriber "s1" interested in USER_ACTIVITY whose callback
never throws. -/
def subQuiet : StreamSubscriber :=
  { id := "s1", eventTypes := [.USER_ACTIVITY], throwsOn := fun _ => false,
    isActive := true }

/-- An active subscriber "s1" interested in USER_ACTIVITY whose callback
throws on the event with id "e1". -/
def subThrowy : StreamSubscriber :=
  { id := "s1", eventTypes := [.USER_ACTIVITY],
    throwsOn := fun e => e.id == "e1", isActive := true }

/-- An active subscriber "s2" interested in USER_ACTIVITY whose callback
never throws. -/
def subOther : StreamSubscriber :=
  { id := "s2", eventTypes := [.USER_ACTIVITY], throwsOn := fun _ => false,
    isActive := true }

/-- Witness for `notifySubscribers_dispatch`: the single active
subscriber `subQuiet` with one USER_ACTIVITY and one SYSTEM_METRIC event
in the buffer. -/
theorem notifySubscribers_dispatch_witness :
    (("s1", subQuiet) ∈ ([("s1", subQuiet)] : SubMap)) ∧
    (([("s1", subQuiet)] : SubMap).map Prod.fst).Nodup ∧
    subQuiet.isActive = true ∧
    ((notifySubscribers [uaEvent1, smEvent] [("s1", subQuiet)]).filter
        (fun q => q.1 == "s1")
      = (deliverTo subQuiet (recentEvents [uaEvent1, smEvent])).map
          (fun eid => ("s1", eid)) ∧
    ((∀ e ∈ recentEvents [uaEvent1, smEvent], subQuiet.throwsOn e = false) →
      deliverTo subQuiet (recentEvents [uaEvent1, smEvent])
        = ((recentEvents [uaEvent1, smEvent]).filter
            (fun e => subQuiet.eventTypes.contains e.type)).map
            (fun e => e.id))) :=
  ⟨List.mem_singleton.mpr rfl, by simp, rfl,
   notifySubscribers_dispatch [uaEvent1, smEvent] [("s1", subQuiet)] "s1"
     subQuiet (List.mem_singleton.mpr rfl) (by simp) rfl⟩

/-- C7 counterexample: `subThrowy` (interested in USER_ACTIVITY, throws
on e1) and `subOther` (same interest, never throws) receive the window
[e1, e2], both USER_ACTIVITY.  The trace shows `subThrowy` invoked on e1
only: its callback is NOT invoked on e2 although e2's type is in its
interests (the catch aborted its inner loop), while `subOther` still
receives both events.  The claimed "invoked iff the type matches"
therefore fails in the presence of a throwing callback. -/
theorem notifySubscribers_throw_cex :
    notifySubscribers [uaEvent1, uaEvent2]
        [("s1", subThrowy), ("s2", subOther)]
      = [("s1", "e1"), ("s2", "e1"), ("s2", "e2")] ∧
    subThrowy.eventTypes.contains uaEvent2.type = true ∧
    ("s1", "e2") ∉ ([("s1", "e1"), ("s2", "e1"), ("s2", "e2")] :
        List (String × String)) :=
  ⟨rfl, rfl, by decide⟩
